import Mathlib

set_option maxRecDepth 8000

/-!
Shallow embedding of the deterministic subsystems of the web-scraper
repository: the pagination URL resolver (`pagination.py`: `extract_page_number`,
`is_likely_first_page`, `filter_urls_by_page_range`, and the URL-filtering
block of `paginate_urls`) and the multi-strategy email harvester
(`email_extractor.py`).  Python regex searches are embedded as explicit
character-list scanners with the same leftmost-match, greedy-with-backtracking
semantics; Python sets are embedded as order-preserving duplicate-free lists.
-/

/-- Characters of a string, used by all scanners below. -/
def chars (s : String) : List Char := s.toList

/-- Does the second list start with the first list? (The pattern comes first.) -/
def listStartsWith : List Char → List Char → Bool
  | [], _ => true
  | _ :: _, [] => false
  | p :: ps, c :: cs => p == c && listStartsWith ps cs

/-- Suffix test, via `listStartsWith` on the reversals. -/
def listEndsWith (suf s : List Char) : Bool := listStartsWith suf.reverse s.reverse

/-- Substring containment, Python `sub in s`. -/
def containsSub : List Char → List Char → Bool
  | [], sub => sub.isEmpty
  | c :: rest, sub => listStartsWith sub (c :: rest) || containsSub rest sub

/-- Numeric value of a digit run: Python `int(...)` applied to a `\d+` capture. -/
def digitsVal (ds : List Char) : Nat := ds.foldl (fun a c => a * 10 + (c.toNat - 48)) 0

/-- Attempt to match, at the head of `s`, one of the literal alternatives in
`pres`, followed by a non-empty maximal digit run, followed by the literal
`post`.  This is the shared shape of the regexes in the `extract_page_number`
catalog such as `[?&]page=(\d+)` or `[\-_](\d+)\.html`: since a digit cannot
continue past its maximal run into the literal that follows, greedy matching
with backtracking reduces to taking the maximal run. -/
def matchPreAt (pres : List (List Char)) (post : List Char) (s : List Char) : Option Nat :=
  pres.findSome? (fun pre =>
    if listStartsWith pre s then
      let rest := s.drop pre.length
      let ds := rest.takeWhile Char.isDigit
      if ds.isEmpty then none
      else if listStartsWith post (rest.drop ds.length) then some (digitsVal ds)
      else none
    else none)

/-- `re.search` of a `pres …digits… post` pattern: try every position from the
left and return the first successful capture. -/
def searchPre (pres : List (List Char)) (post : List Char) : List Char → Option Nat
  | [] => none
  | c :: rest =>
    match matchPreAt pres post (c :: rest) with
    | some n => some n
    | none => searchPre pres post rest

/-- The regex `/(\d+)/?$` of the catalog: the URL ends in `/N` or `/N/`;
the captured value is that final digit run. -/
def trailingNumber (s : List Char) : Option Nat :=
  let rev := s.reverse
  let rev1 := match rev with
              | '/' :: r => r
              | r => r
  let ds := rev1.takeWhile Char.isDigit
  if ds.isEmpty then none
  else match rev1.drop ds.length with
       | '/' :: _ => some (digitsVal ds.reverse)
       | _ => none

/-- A query-parameter pattern `[?&]key=(\d+)` of the catalog. -/
def qpat (key : String) : List Char → Option Nat :=
  fun s => searchPre ['?' :: (chars key ++ ['='] ), '&' :: (chars key ++ ['='] )] [] s

/-- A plain literal-then-digits pattern such as `/page/(\d+)` or `-page-(\d+)`. -/
def ppat (seg : String) : List Char → Option Nat :=
  fun s => searchPre [chars seg] [] s

/-- The ordered pattern catalog of `extract_page_number`
(`pagination.py`, lines 538-563), one entry per regex, in source order. -/
def patternCatalog : List (List Char → Option Nat) :=
  [ qpat "page", qpat "p", qpat "pg", qpat "paged", qpat "paging", qpat "pp",
    qpat "pagina", qpat "seite", qpat "pagine", qpat "pagination", qpat "current",
    qpat "offset",
    ppat "/page/", ppat "/p/", ppat "/paged/", ppat "/pages/",
    ppat "-page-", ppat "_page_", ppat "-p-", ppat "_p_",
    (fun s => searchPre [['-'], ['_']] (chars ".html") s),
    (fun s => trailingNumber s),
    (fun s => searchPre [chars "page"] (chars ".html") s),
    (fun s => searchPre [chars "p"] (chars ".html") s) ]

/-- `extract_page_number` (`pagination.py`): first pattern of the ordered
catalog that matches wins; no match means unknown (`None`). -/
def extract_page_number (url : String) : Option Nat :=
  patternCatalog.findSome? (fun p => p (chars url))

/-- The regex `^https?://[^/]+/?$` used by `is_likely_first_page`:
a bare origin with no path beyond an optional single trailing slash. -/
def matchesBareRoot (s : List Char) : Bool :=
  let afterScheme : Option (List Char) :=
    if listStartsWith (chars "https://") s then some (s.drop 8)
    else if listStartsWith (chars "http://") s then some (s.drop 7)
    else none
  match afterScheme with
  | none => false
  | some rest =>
    match rest.reverse with
    | [] => false
    | '/' :: core => !core.isEmpty && core.all (fun c => c ≠ '/')
    | _ => !rest.isEmpty && rest.all (fun c => c ≠ '/')

/-- The regex `/$|/index\.(?:html|php|asp|jsp)$` used by `is_likely_first_page`. -/
def endsSlashOrIndex (s : List Char) : Bool :=
  match s.reverse with
  | '/' :: _ => true
  | _ =>
    listEndsWith (chars "/index.html") s || listEndsWith (chars "/index.php") s ||
    listEndsWith (chars "/index.asp") s || listEndsWith (chars "/index.jsp") s

/-- `is_likely_first_page` (`pagination.py`, lines 66-95): explicit page-1
marker, bare root URL, trailing slash or index file, or absence of the four
literal pagination markers `page=`, `/page/`, `?p=`, `&p=`. -/
def is_likely_first_page (url : String) : Bool :=
  if extract_page_number url == some 1 then true
  else if matchesBareRoot (chars url) then true
  else if endsSlashOrIndex (chars url) then true
  else if !(containsSub (chars url) (chars "page=") || containsSub (chars url) (chars "/page/") ||
            containsSub (chars url) (chars "?p=") || containsSub (chars url) (chars "&p=")) then true
  else false

/-- Range test of `filter_urls_by_page_range`: with a bounded end the page must
satisfy `start_page <= n <= end_page`; with `end_page = None` only
`n >= start_page` is required. -/
def inPageRange (n startPage : Nat) (endPage : Option Nat) : Bool :=
  match endPage with
  | some e => decide (startPage ≤ n) && decide (n ≤ e)
  | none => decide (startPage ≤ n)

/-- Loop body of `filter_urls_by_page_range` (`pagination.py`, lines 489-523):
`seen` is the set of page numbers already included; a URL with a known page
number is skipped when its number was seen or is out of range, and a URL with
no detectable page number is always included. -/
def filterGo (startPage : Nat) (endPage : Option Nat) : List String → List Nat → List String
  | [], _ => []
  | url :: rest, seen =>
    match extract_page_number url with
    | some n =>
      if n ∈ seen then filterGo startPage endPage rest seen
      else if inPageRange n startPage endPage then
        url :: filterGo startPage endPage rest (n :: seen)
      else filterGo startPage endPage rest seen
    | none => url :: filterGo startPage endPage rest seen

/-- `filter_urls_by_page_range` (`pagination.py`): starts with an empty
seen-page-number set. -/
def filter_urls_by_page_range (urls : List String) (start_page : Nat)
    (end_page : Option Nat) : List String :=
  filterGo start_page end_page urls []

/-- First URL of the list whose extracted page number is `n`. -/
def firstWithPage (urls : List String) (n : Nat) : Option String :=
  urls.find? (fun v => extract_page_number v == some n)

/-- Order-preserving string-level deduplication
(`paginate_urls`, lines 212-218: `seen_urls` set plus `unique_page_urls` list). -/
def dedupGo : List String → List String → List String
  | [], _ => []
  | u :: rest, seen => if u ∈ seen then dedupGo rest seen else u :: dedupGo rest (u :: seen)

/-- The URL-filtering block of `paginate_urls` (`pagination.py`, lines 192-218)
for one batch of candidate URLs: determine whether any original URL looks like
page 1; if so and `start_page == 1`, pre-drop candidates that are page 1 (or
look like a first page with unknown page number) and bump the effective start
to 2; then range-filter, remove URLs equal to an original, and deduplicate
preserving order. -/
def resolve_pagination (candidates originals : List String) (startPage : Nat)
    (endPage : Option Nat) : List String :=
  let originalHasPage1 := originals.any is_likely_first_page
  let cands :=
    if originalHasPage1 && startPage == 1 then
      candidates.filter (fun url =>
        !(extract_page_number url == some 1 ||
          (extract_page_number url == none && is_likely_first_page url)))
    else candidates
  let effectiveStart := if originalHasPage1 && startPage == 1 then 2 else startPage
  let filtered := filter_urls_by_page_range cands effectiveStart endPage
  let filtered2 := filtered.filter (fun url => !originals.contains url)
  dedupGo filtered2 []

/-! ### Helper lemmas about the resolver pipeline -/

lemma firstWithPage_cons (url : String) (rest : List String) (n : Nat) :
    firstWithPage (url :: rest) n =
      if extract_page_number url = some n then some url else firstWithPage rest n := by
  by_cases h : extract_page_number url = some n
  · simp [firstWithPage, List.find?_cons, h]
  · simp [firstWithPage, List.find?_cons, h]

lemma mem_filterGo_none (s : Nat) (e : Option Nat) (u : String)
    (hu : extract_page_number u = none) :
    ∀ (urls : List String) (seen : List Nat),
      u ∈ filterGo s e urls seen ↔ u ∈ urls := by
  intro urls
  induction urls with
  | nil => intro seen; simp [filterGo]
  | cons url rest ih =>
    intro seen
    cases hpu : extract_page_number url with
    | none => simp [filterGo, hpu, ih]
    | some m =>
      have hne : u ≠ url := by
        intro hh; rw [hh, hpu] at hu; cases hu
      simp only [filterGo, hpu]
      by_cases hm : m ∈ seen
      · simp [hm, ih, hne]
      · by_cases hr : inPageRange m s e = true
        · simp [hm, hr, ih, hne, List.mem_cons]
        · simp [hm, hr, ih, hne]

lemma mem_filterGo_some (s : Nat) (e : Option Nat) (u : String) (n : Nat)
    (hu : extract_page_number u = some n) :
    ∀ (urls : List String) (seen : List Nat),
      u ∈ filterGo s e urls seen ↔
        n ∉ seen ∧ inPageRange n s e = true ∧ firstWithPage urls n = some u := by
  intro urls
  induction urls with
  | nil => intro seen; simp [filterGo, firstWithPage]
  | cons url rest ih =>
    intro seen
    cases hpu : extract_page_number url with
    | none =>
      have hne : u ≠ url := by intro hh; rw [hh, hpu] at hu; cases hu
      have hx : extract_page_number url ≠ some n := by rw [hpu]; exact fun hh => by cases hh
      have hfw : firstWithPage (url :: rest) n = firstWithPage rest n := by
        rw [firstWithPage_cons, if_neg hx]
      simp only [filterGo, hpu]
      rw [List.mem_cons, ih seen, hfw]
      constructor
      · rintro (h | h)
        · exact absurd h hne
        · exact h
      · exact Or.inr
    | some m =>
      by_cases hnm : n = m
      · subst hnm
        have hfw : firstWithPage (url :: rest) n = some url := by
          rw [firstWithPage_cons, if_pos hpu]
        simp only [filterGo, hpu]
        by_cases hm : n ∈ seen
        · rw [if_pos hm, ih seen, hfw]
          constructor
          · rintro ⟨hns, _, _⟩; exact absurd hm hns
          · rintro ⟨hns, _, _⟩; exact absurd hm hns
        · by_cases hr : inPageRange n s e = true
          · rw [if_neg hm, if_pos hr, List.mem_cons, ih (n :: seen), hfw]
            constructor
            · rintro (h | ⟨hns, _, _⟩)
              · exact ⟨hm, hr, by rw [h]⟩
              · exact absurd (List.mem_cons_self n seen) hns
            · rintro ⟨_, _, h⟩
              exact Or.inl (Option.some.inj h).symm
          · rw [if_neg hm, if_neg hr, ih seen, hfw]
            constructor
            · rintro ⟨_, h2, _⟩; exact absurd h2 hr
            · rintro ⟨_, h2, _⟩; exact absurd h2 hr
      · have hne : u ≠ url := by
          intro hh; rw [hh, hpu] at hu
          exact hnm (Option.some.inj hu).symm
        have hx : extract_page_number url ≠ some n := by
          rw [hpu]; intro hh; exact hnm (Option.some.inj hh).symm
        have hfw : firstWithPage (url :: rest) n = firstWithPage rest n := by
          rw [firstWithPage_cons, if_neg hx]
        simp only [filterGo, hpu]
        by_cases hm : m ∈ seen
        · rw [if_pos hm, ih seen, hfw]
        · by_cases hr : inPageRange m s e = true
          · rw [if_neg hm, if_pos hr, List.mem_cons, ih (m :: seen), hfw]
            constructor
            · rintro (h | ⟨hns, h2, h3⟩)
              · exact absurd h hne
              · exact ⟨fun hin => hns (List.mem_cons_of_mem m hin), h2, h3⟩
            · rintro ⟨hns, h2, h3⟩
              refine Or.inr ⟨?_, h2, h3⟩
              intro hin
              rcases List.mem_cons.1 hin with h | h
              · exact hnm h
              · exact hns h
          · rw [if_neg hm, if_neg hr, ih seen, hfw]

lemma mem_of_mem_filterGo (s : Nat) (e : Option Nat) (urls : List String) (seen : List Nat)
    (u : String) (h : u ∈ filterGo s e urls seen) : u ∈ urls := by
  cases hu : extract_page_number u with
  | none => exact (mem_filterGo_none s e u hu urls seen).1 h
  | some n =>
    have h2 := (mem_filterGo_some s e u n hu urls seen).1 h
    exact List.mem_of_find?_eq_some h2.2.2

lemma inRange_of_mem_filterGo (s : Nat) (e : Option Nat) (urls : List String) (seen : List Nat)
    (u : String) (n : Nat) (hu : extract_page_number u = some n)
    (h : u ∈ filterGo s e urls seen) : inPageRange n s e = true :=
  ((mem_filterGo_some s e u n hu urls seen).1 h).2.1

lemma mem_of_mem_dedupGo : ∀ (l seen : List String) (u : String), u ∈ dedupGo l seen → u ∈ l := by
  intro l
  induction l with
  | nil => intro seen u h; simp [dedupGo] at h
  | cons x rest ih =>
    intro seen u h
    simp only [dedupGo] at h
    by_cases hx : x ∈ seen
    · rw [if_pos hx] at h
      exact List.mem_cons_of_mem _ (ih _ _ h)
    · rw [if_neg hx] at h
      rcases List.mem_cons.1 h with h | h
      · exact h ▸ List.mem_cons_self _ _
      · exact List.mem_cons_of_mem _ (ih _ _ h)

lemma contains_true_of_mem {l : List String} {u : String} (h : u ∈ l) : l.contains u = true := by
  simpa using h

lemma findSome?_append {α β : Type} (f : α → Option β) (l₁ l₂ : List α) :
    (l₁ ++ l₂).findSome? f =
      match l₁.findSome? f with
      | some b => some b
      | none => l₂.findSome? f := by
  induction l₁ with
  | nil => simp [List.findSome?]
  | cons a l ih =>
    rw [List.cons_append]
    rw [List.findSome?]
    rw [List.findSome?]
    cases f a with
    | none => simpa using ih
    | some b => rfl

/-! ### Claims about the pagination resolver -/

/-- C1: for originals `["https://u.edu/dept"]` (classified as page 1 by the
heuristic), candidates `?page=1`, `?page=2`, `?page=3`, `start_page = 1` and
`end_page = 2`, the filtering pipeline of `paginate_urls` returns exactly the
single URL `https://u.edu/dept?page=2`. -/
theorem claim_C1_resolver_example :
    is_likely_first_page "https://u.edu/dept" = true ∧
    resolve_pagination
      ["https://u.edu/dept?page=1", "https://u.edu/dept?page=2", "https://u.edu/dept?page=3"]
      ["https://u.edu/dept"] 1 (some 2) = ["https://u.edu/dept?page=2"] := by
  decide

/-- C2: for every candidate list, original list and page range, the resolver
output never contains a URL string-equal to an original input URL. -/
theorem claim_C2_no_original_in_output (candidates originals : List String)
    (startPage : Nat) (endPage : Option Nat) (u : String)
    (h : u ∈ resolve_pagination candidates originals startPage endPage) :
    u ∉ originals := by
  intro hmem
  simp only [resolve_pagination] at h
  have h2 := mem_of_mem_dedupGo _ _ _ h
  have h3 := (List.mem_filter.1 h2).2
  rw [contains_true_of_mem hmem] at h3
  cases h3

/-- Witness for C2 at the concrete inputs of the worked example. -/
theorem claim_C2_witness :
    "https://u.edu/dept?page=2" ∈
      resolve_pagination
        ["https://u.edu/dept?page=1", "https://u.edu/dept?page=2", "https://u.edu/dept?page=3"]
        ["https://u.edu/dept"] 1 (some 2) ∧
    "https://u.edu/dept?page=2" ∉ ["https://u.edu/dept"] :=
  ⟨by decide,
   claim_C2_no_original_in_output
     ["https://u.edu/dept?page=1", "https://u.edu/dept?page=2", "https://u.edu/dept?page=3"]
     ["https://u.edu/dept"] 1 (some 2) "https://u.edu/dept?page=2" (by decide)⟩

/-- C3 counterexample: two distinct URLs with the same extracted page number 2,
both inside the range `[1, ∞)`; the claim as stated says both survive range
filtering, but the second is dropped by the seen-page-number deduplication. -/
theorem claim_C3_counterexample :
    extract_page_number "https://e.com/b?page=2" = some 2 ∧
    inPageRange 2 1 none = true ∧
    "https://e.com/b?page=2" ∈ ["https://e.com/a?page=2", "https://e.com/b?page=2"] ∧
    "https://e.com/b?page=2" ∉
      filter_urls_by_page_range ["https://e.com/a?page=2", "https://e.com/b?page=2"] 1 none := by
  decide

/-- C3 amended: a URL whose page number is unknown always survives range
filtering; a URL with known page number `n` survives iff `n` is in range AND it
is the first URL of the input whose extracted page number is `n`. -/
theorem claim_C3_range_filter_characterized (urls : List String) (s : Nat) (e : Option Nat)
    (u : String) :
    (extract_page_number u = none →
      (u ∈ filter_urls_by_page_range urls s e ↔ u ∈ urls)) ∧
    (∀ n : Nat, extract_page_number u = some n →
      (u ∈ filter_urls_by_page_range urls s e ↔
        inPageRange n s e = true ∧ firstWithPage urls n = some u)) := by
  constructor
  · intro hu
    exact mem_filterGo_none s e u hu urls []
  · intro n hu
    rw [filter_urls_by_page_range, mem_filterGo_some s e u n hu urls []]
    simp

/-- Witness for the amended C3 at concrete inputs. -/
theorem claim_C3_witness :
    extract_page_number "https://e.com/b?page=2" = some 2 ∧
    ("https://e.com/b?page=2" ∈
        filter_urls_by_page_range ["https://e.com/a?page=2", "https://e.com/b?page=2"] 1 none ↔
      inPageRange 2 1 none = true ∧
        firstWithPage ["https://e.com/a?page=2", "https://e.com/b?page=2"] 2 =
          some "https://e.com/b?page=2") :=
  ⟨by decide,
   (claim_C3_range_filter_characterized
      ["https://e.com/a?page=2", "https://e.com/b?page=2"] 1 none
      "https://e.com/b?page=2").2 2 (by decide)⟩

/-- C4: within one range-filtering call, at most one URL per distinct known
page number survives; the first URL (in input order) carrying a given page
number is the only one that can appear, it does appear whenever its number is
in range, and any later URL carrying the same number is dropped. -/
theorem claim_C4_page_number_uniqueness (urls : List String) (s : Nat) (e : Option Nat)
    (n : Nat) :
    (∀ u v : String, u ∈ filter_urls_by_page_range urls s e →
      v ∈ filter_urls_by_page_range urls s e →
      extract_page_number u = some n → extract_page_number v = some n → u = v) ∧
    (∀ u v : String, firstWithPage urls n = some u → extract_page_number v = some n →
      v ≠ u → v ∉ filter_urls_by_page_range urls s e) ∧
    (∀ u : String, firstWithPage urls n = some u → inPageRange n s e = true →
      u ∈ filter_urls_by_page_range urls s e) := by
  refine ⟨?_, ?_, ?_⟩
  · intro u v hu hv hun hvn
    have h1 := ((mem_filterGo_some s e u n hun urls []).1 hu).2.2
    have h2 := ((mem_filterGo_some s e v n hvn urls []).1 hv).2.2
    rw [h1] at h2
    exact Option.some.inj h2
  · intro u v hfw hvn hne hmem
    have h2 := ((mem_filterGo_some s e v n hvn urls []).1 hmem).2.2
    rw [hfw] at h2
    exact hne (Option.some.inj h2).symm
  · intro u hfw hr
    have hun : extract_page_number u = some n := by
      have := List.find?_some hfw
      simpa using this
    exact (mem_filterGo_some s e u n hun urls []).2 ⟨by simp, hr, hfw⟩

/-- Witness for C4 at concrete inputs. -/
theorem claim_C4_witness :
    "https://e.com/b?page=2" ∉
      filter_urls_by_page_range ["https://e.com/a?page=2", "https://e.com/b?page=2"] 1 none ∧
    "https://e.com/a?page=2" ∈
      filter_urls_by_page_range ["https://e.com/a?page=2", "https://e.com/b?page=2"] 1 none :=
  ⟨(claim_C4_page_number_uniqueness
      ["https://e.com/a?page=2", "https://e.com/b?page=2"] 1 none 2).2.1
      "https://e.com/a?page=2" "https://e.com/b?page=2" (by decide) (by decide) (by decide),
   (claim_C4_page_number_uniqueness
      ["https://e.com/a?page=2", "https://e.com/b?page=2"] 1 none 2).2.2
      "https://e.com/a?page=2" (by decide) (by decide)⟩

/-- C5 counterexample: with `start_page = 2` supplied directly (no bump, yet
`effective_start = 2 > 1`), a candidate whose page number is unknown but which
`is_likely_first_page` classifies as a first page survives into the output:
the explicit first-page drop only runs in the bump branch
(`original_has_page_1 and start_page == 1`). -/
theorem claim_C5_counterexample :
    extract_page_number "https://site.edu/" = none ∧
    is_likely_first_page "https://site.edu/" = true ∧
    resolve_pagination ["https://site.edu/"] ["https://x.com/a?page=5"] 2 none =
      ["https://site.edu/"] := by
  decide

/-- C5 amended: when the bump branch is taken (`original_has_page_1` and
`start_page = 1`), every candidate that is page 1 or looks like a first page
with unknown page number is dropped; when the caller supplies
`start_page ≥ 2` directly, only candidates whose page number resolves to
exactly 1 are guaranteed to be dropped (by range filtering) — first-page-like
candidates with unknown page number are not. -/
theorem claim_C5_first_page_exclusion (candidates originals : List String)
    (endPage : Option Nat) :
    (originals.any is_likely_first_page = true →
      ∀ u : String,
        (extract_page_number u = some 1 ∨
          (extract_page_number u = none ∧ is_likely_first_page u = true)) →
        u ∉ resolve_pagination candidates originals 1 endPage) ∧
    (∀ startPage : Nat, 2 ≤ startPage →
      ∀ u : String, extract_page_number u = some 1 →
        u ∉ resolve_pagination candidates originals startPage endPage) := by
  constructor
  · intro horig u hdrop hmem
    simp only [resolve_pagination, horig] at hmem
    have h2 := mem_of_mem_dedupGo _ _ _ hmem
    have h3 := (List.mem_filter.1 h2).1
    have h4 := mem_of_mem_filterGo _ _ _ _ _ h3
    have h5 := (List.mem_filter.1 h4).2
    rcases hdrop with h | ⟨h, hl⟩
    · simp [h] at h5
    · simp [h, hl] at h5
  · intro startPage hs u hex hmem
    have hsne : (startPage == 1) = false := by
      have : startPage ≠ 1 := by omega
      simpa using this
    simp only [resolve_pagination, hsne, Bool.and_false] at hmem
    have h2 := mem_of_mem_dedupGo _ _ _ hmem
    have h3 := (List.mem_filter.1 h2).1
    have h4 := inRange_of_mem_filterGo _ _ _ _ _ _ hex h3
    cases endPage with
    | none => simp [inPageRange] at h4; omega
    | some ee => simp [inPageRange] at h4; omega

/-- Witness for the amended C5 at concrete inputs. -/
theorem claim_C5_witness :
    "https://u.edu/dept?page=1" ∉
      resolve_pagination
        ["https://u.edu/dept?page=1", "https://u.edu/dept?page=2", "https://u.edu/dept?page=3"]
        ["https://u.edu/dept"] 1 (some 2) ∧
    "https://e.com/a?page=1" ∉ resolve_pagination ["https://e.com/a?page=1"] [] 2 none :=
  ⟨(claim_C5_first_page_exclusion
      ["https://u.edu/dept?page=1", "https://u.edu/dept?page=2", "https://u.edu/dept?page=3"]
      ["https://u.edu/dept"] (some 2)).1 (by decide) "https://u.edu/dept?page=1"
      (Or.inl (by decide)),
   (claim_C5_first_page_exclusion ["https://e.com/a?page=1"] [] none).2 2 (by decide)
      "https://e.com/a?page=1" (by decide)⟩

/-- C6 counterexample: `https://x.com/page3.html/5` matches both the filename
pattern `page(\d+)\.html` (capturing 3) and the bare trailing-number pattern
`/(\d+)/?$` (capturing 5); the claim says the filename pattern wins, but the
bare trailing-number pattern sits BEFORE `pageN.html` in the catalog, so the
extractor returns 5, not 3. -/
theorem claim_C6_counterexample :
    searchPre [chars "page"] (chars ".html") (chars "https://x.com/page3.html/5") = some 3 ∧
    trailingNumber (chars "https://x.com/page3.html/5") = some 5 ∧
    extract_page_number "https://x.com/page3.html/5" = some 5 ∧
    extract_page_number "https://x.com/page3.html/5" ≠ some 3 := by
  decide

/-- C6 amended: the catalog is evaluated first-match-wins; every
query-parameter, path-segment, separator and `-N.html`/`_N.html` pattern
(the first 21 entries) takes priority over the bare trailing-number pattern,
and the bare trailing-number pattern itself takes priority over the two
remaining filename patterns `pageN.html` and `pN.html`. -/
theorem claim_C6_catalog_priority (url : String) (n : Nat) :
    ((patternCatalog.take 21).findSome? (fun p => p (chars url)) = some n →
      extract_page_number url = some n) ∧
    ((patternCatalog.take 21).findSome? (fun p => p (chars url)) = none →
      trailingNumber (chars url) = some n →
      extract_page_number url = some n) := by
  have hsplit : patternCatalog = patternCatalog.take 21 ++ patternCatalog.drop 21 :=
    (List.take_append_drop 21 patternCatalog).symm
  constructor
  · intro h
    show patternCatalog.findSome? (fun p => p (chars url)) = some n
    rw [hsplit, findSome?_append, h]
  · intro h ht
    show patternCatalog.findSome? (fun p => p (chars url)) = some n
    rw [hsplit, findSome?_append, h]
    have hdrop : patternCatalog.drop 21 =
        [(fun s => trailingNumber s),
         (fun s => searchPre [chars "page"] (chars ".html") s),
         (fun s => searchPre [chars "p"] (chars ".html") s)] := rfl
    rw [hdrop, List.findSome?]
    simp only [ht]

/-- Witness for the amended C6 at concrete inputs. -/
theorem claim_C6_witness :
    extract_page_number "https://x.com/a?page=4" = some 4 ∧
    extract_page_number "https://x.com/pics/7" = some 7 :=
  ⟨(claim_C6_catalog_priority "https://x.com/a?page=4" 4).1 (by decide),
   (claim_C6_catalog_priority "https://x.com/pics/7" 7).2 (by decide) (by decide)⟩

/-- C7 counterexample: `https://site.edu/dept?seite=4` carries the recognized
pagination parameter `seite=` with value 4, so the claim says
`is_likely_first_page` returns false; but the absence-of-pagination-signal
check only looks for the four literal markers `page=`, `/page/`, `?p=`, `&p=`,
none of which occur, so the function returns true. -/
theorem claim_C7_counterexample :
    extract_page_number "https://site.edu/dept?seite=4" = some 4 ∧
    is_likely_first_page "https://site.edu/dept?seite=4" = true := by
  decide

/-- C7 amended: `is_likely_first_page` is true for `https://site.edu/`, false
for `https://site.edu/dept?page=4`, but true for
`https://site.edu/dept?seite=4`, because condition (d) checks only the four
literal markers `page=`, `/page/`, `?p=`, `&p=` rather than the full extractor
catalog; consequently a false result implies the page number is not 1 and one
of those four markers occurs in the URL. -/
theorem claim_C7_first_page_heuristic :
    (is_likely_first_page "https://site.edu/" = true ∧
     is_likely_first_page "https://site.edu/dept?page=4" = false ∧
     is_likely_first_page "https://site.edu/dept?seite=4" = true) ∧
    (∀ url : String, is_likely_first_page url = false →
      extract_page_number url ≠ some 1 ∧
      (containsSub (chars url) (chars "page=") = true ∨
       containsSub (chars url) (chars "/page/") = true ∨
       containsSub (chars url) (chars "?p=") = true ∨
       containsSub (chars url) (chars "&p=") = true)) := by
  refine ⟨by decide, ?_⟩
  intro url h
  simp only [is_likely_first_page] at h
  by_cases h1 : (extract_page_number url == some 1) = true
  · rw [if_pos h1] at h; cases h
  · rw [if_neg h1] at h
    by_cases h2 : matchesBareRoot (chars url) = true
    · rw [if_pos h2] at h; cases h
    · rw [if_neg h2] at h
      by_cases h3 : endsSlashOrIndex (chars url) = true
      · rw [if_pos h3] at h; cases h
      · rw [if_neg h3] at h
        by_cases h4 : (!(containsSub (chars url) (chars "page=") ||
            containsSub (chars url) (chars "/page/") ||
            containsSub (chars url) (chars "?p=") ||
            containsSub (chars url) (chars "&p="))) = true
        · rw [if_pos h4] at h; cases h
        · constructor
          · intro hh
            exact h1 (by simp [hh])
          · have h5 : (containsSub (chars url) (chars "page=") ||
                containsSub (chars url) (chars "/page/") ||
                containsSub (chars url) (chars "?p=") ||
                containsSub (chars url) (chars "&p=")) = true := by
              rcases Bool.eq_false_or_eq_true (containsSub (chars url) (chars "page=") ||
                containsSub (chars url) (chars "/page/") ||
                containsSub (chars url) (chars "?p=") ||
                containsSub (chars url) (chars "&p=")) with hb | hb
              · exact hb
              · exact absurd (by simp [hb]) h4
            simp only [Bool.or_eq_true] at h5
            tauto

/-- Witness for the amended C7 universal part at a concrete input. -/
theorem claim_C7_witness :
    extract_page_number "https://site.edu/dept?page=4" ≠ some 1 ∧
    (containsSub (chars "https://site.edu/dept?page=4") (chars "page=") = true ∨
     containsSub (chars "https://site.edu/dept?page=4") (chars "/page/") = true ∨
     containsSub (chars "https://site.edu/dept?page=4") (chars "?p=") = true ∨
     containsSub (chars "https://site.edu/dept?page=4") (chars "&p=") = true) :=
  claim_C7_first_page_heuristic.2 "https://site.edu/dept?page=4" (by decide)

/-- C10: the extractor also recognizes `offset=`, `current=`, `pp=`, `paging=`
and `pagination=` query parameters and treats their values as page numbers;
such values then drive range filtering and page-number deduplication. -/
theorem claim_C10_extra_query_parameters :
    extract_page_number "https://e.com/list?offset=20" = some 20 ∧
    extract_page_number "https://e.com/list?a=1&current=3" = some 3 ∧
    extract_page_number "https://e.com/list?pp=7" = some 7 ∧
    extract_page_number "https://e.com/list?paging=4" = some 4 ∧
    extract_page_number "https://e.com/list?pagination=9" = some 9 ∧
    filter_urls_by_page_range ["https://e.com/list?offset=20"] 1 (some 10) = [] ∧
    filter_urls_by_page_range
      ["https://e.com/list?offset=20", "https://e.com/list?page=20"] 1 (some 30) =
      ["https://e.com/list?offset=20"] := by
  decide

/-! ### Email harvester (`email_extractor.py`)

Character classes of the canonical email regex
`[a-zA-Z0-9._%+-]+@[a-zA-Z0-9.-]+\.[a-zA-Z]{2,}`, shared by the plain-text
scanner, the entity-encoded scanner and the validator. -/

/-- Local-part character class `[a-zA-Z0-9._%+-]`. -/
def isLocalChar (c : Char) : Bool :=
  c.isAlpha || c.isDigit || c = '.' || c = '_' || c = '%' || c = '+' || c = '-'

/-- Domain character class `[a-zA-Z0-9.-]`. -/
def isDomainChar (c : Char) : Bool :=
  c.isAlpha || c.isDigit || c = '.' || c = '-'

/-- Split a character list at the first occurrence of `sep`: Python
`s.split(sep, 1)` when `sep` occurs, `none` otherwise. -/
def splitAtFirst (sep : Char) : List Char → Option (List Char × List Char)
  | [] => none
  | c :: cs =>
    if c = sep then some ([], cs)
    else match splitAtFirst sep cs with
      | some (l, r) => some (c :: l, r)
      | none => none

/-- Rightmost split of a domain-character run at a dot followed by at least two
letters.  `[a-zA-Z0-9.-]+\.[a-zA-Z]{2,}` with a greedy backtracking engine
commits to the rightmost dot whose following letter run has length ≥ 2; the
returned pair is (matched part through the letter run, leftover). -/
def lastEligibleSplit : List Char → Option (List Char × List Char)
  | [] => none
  | c :: rest =>
    match lastEligibleSplit rest with
    | some (pre, rem) => some (c :: pre, rem)
    | none =>
      if c = '.' then
        let run := rest.takeWhile Char.isAlpha
        if 2 ≤ run.length then some ('.' :: run, rest.drop run.length) else none
      else none

/-- Match `[a-zA-Z0-9.-]+\.[a-zA-Z]{2,}` against a maximal domain-character
run: at least one domain character must precede the chosen dot. -/
def domSplit : List Char → Option (List Char × List Char)
  | [] => none
  | c :: rest =>
    match lastEligibleSplit rest with
    | some (pre, rem) => some (c :: pre, rem)
    | none => none

/-- One attempted match of the email regex at the head of the list; on success
returns the matched text and the remainder of the input after the match. -/
def emailMatchAt (s : List Char) : Option (List Char × List Char) :=
  let lcl := s.takeWhile isLocalChar
  if lcl.isEmpty then none
  else match s.drop lcl.length with
    | '@' :: after =>
      let dom := after.takeWhile isDomainChar
      match domSplit dom with
      | some (pre, rem) => some (lcl ++ '@' :: pre, rem ++ after.drop dom.length)
      | none => none
    | _ => none

/-- `re.findall` of the email regex: scan left to right, collect
non-overlapping matches. -/
def findallEmails : Nat → List Char → List (List Char)
  | 0, _ => []
  | _, [] => []
  | fuel + 1, c :: rest =>
    match emailMatchAt (c :: rest) with
    | some (m, after) => m :: findallEmails fuel after
    | none => findallEmails fuel rest

/-- `_extract_emails_with_regex` (`email_extractor.py`, lines 55-59). -/
def extract_emails_with_regex (text : String) : List String :=
  (findallEmails (chars text).length (chars text)).map String.mk

/-- Whitespace class, Python `str.strip` / `\s`. -/
def isWS (c : Char) : Bool := c = ' ' || c = '\t' || c = '\n' || c = '\r'

/-- Python `str.strip()`. -/
def stripEnds (l : List Char) : List Char :=
  ((l.dropWhile isWS).reverse.dropWhile isWS).reverse

/-- Lowercased copy, Python `str.lower()` for ASCII. -/
def lowerList (l : List Char) : List Char := l.map Char.toLower

/-- Prefix of the list before the first occurrence of `sub`. -/
def takeUntilSub (sub : List Char) : List Char → List Char
  | [] => []
  | c :: rest => if listStartsWith sub (c :: rest) then [] else c :: takeUntilSub sub rest

/-- Remainder of the list from the first occurrence of `sub` (or `[]`). -/
def dropToSub (sub : List Char) : List Char → List Char
  | [] => []
  | c :: rest => if listStartsWith sub (c :: rest) then c :: rest else dropToSub sub rest

/-- Modelled from Python's `html.unescape` entity table: decimal numeric
entities `&#N;` and the common named entities; hexadecimal and
semicolon-less forms are not needed by any claim and are left undecoded. -/
def parseEntity (s : List Char) : Option (Char × List Char) :=
  match s with
  | '#' :: more =>
    let ds := more.takeWhile Char.isDigit
    if ds.isEmpty then none
    else match more.drop ds.length with
      | ';' :: rest => some (Char.ofNat (digitsVal ds), rest)
      | _ => none
  | _ =>
    if listStartsWith (chars "amp;") s then some ('&', s.drop 4)
    else if listStartsWith (chars "lt;") s then some ('<', s.drop 3)
    else if listStartsWith (chars "gt;") s then some ('>', s.drop 3)
    else if listStartsWith (chars "quot;") s then some ('"', s.drop 5)
    else if listStartsWith (chars "nbsp;") s then some (' ', s.drop 5)
    else none

/-- Single pass of entity decoding; the fuel equals the input length, and every
step consumes at least one character. -/
def unescapeGo : Nat → List Char → List Char
  | 0, _ => []
  | _, [] => []
  | fuel + 1, '&' :: rest =>
    (match parseEntity rest with
     | some (c, rest2) => c :: unescapeGo fuel rest2
     | none => '&' :: unescapeGo fuel rest)
  | fuel + 1, c :: rest => c :: unescapeGo fuel rest

/-- Model of Python `html.unescape` (strategy 2 preprocesses the markup
with it before re-running the email regex). -/
def htmlUnescape (s : String) : String :=
  String.mk (unescapeGo (chars s).length (chars s))

/-- Model of BeautifulSoup element discovery for one tag name: the attribute
region (between the tag name and the closing angle bracket) of each
occurrence, in document order. -/
def tagRegions (tag : List Char) : Nat → List Char → List (List Char)
  | 0, _ => []
  | _, [] => []
  | fuel + 1, '<' :: rest =>
    if listStartsWith tag rest &&
       (match rest.drop tag.length with
        | [] => false
        | c :: _ => isWS c || c = '>' || c = '/') then
      (rest.drop tag.length).takeWhile (fun c => c ≠ '>') ::
        tagRegions tag fuel ((rest.drop tag.length).dropWhile (fun c => c ≠ '>'))
    else tagRegions tag fuel rest
  | fuel + 1, _ :: rest => tagRegions tag fuel rest

/-- Model of BeautifulSoup element discovery for arbitrary tags: the region
after `<` up to `>` of every tag whose name starts with a letter. -/
def allTagRegions : Nat → List Char → List (List Char)
  | 0, _ => []
  | _, [] => []
  | fuel + 1, '<' :: rest =>
    (match rest with
     | [] => []
     | c :: _ =>
       if c.isAlpha then
         rest.takeWhile (fun ch => ch ≠ '>') ::
           allTagRegions fuel (rest.dropWhile (fun ch => ch ≠ '>'))
       else allTagRegions fuel rest)
  | fuel + 1, _ :: rest => allTagRegions fuel rest

/-- Model of BeautifulSoup inner-text discovery for one tag name: the raw
content between the opening tag's `>` and the matching `</tag`. -/
def tagContents (tag : List Char) : Nat → List Char → List (List Char)
  | 0, _ => []
  | _, [] => []
  | fuel + 1, '<' :: rest =>
    if listStartsWith tag rest &&
       (match rest.drop tag.length with
        | [] => false
        | c :: _ => isWS c || c = '>') then
      let afterOpen := ((rest.drop tag.length).dropWhile (fun c => c ≠ '>')).drop 1
      let closer := '<' :: '/' :: tag
      takeUntilSub closer afterOpen :: tagContents tag fuel (dropToSub closer afterOpen)
    else tagContents tag fuel rest
  | fuel + 1, _ :: rest => tagContents tag fuel rest

/-- Model of attribute lookup inside a tag region: the quoted value following
`name=`. -/
def attrValue (name : List Char) : List Char → Option (List Char)
  | [] => none
  | c :: rest =>
    if listStartsWith (name ++ ['=']) (c :: rest) then
      match (c :: rest).drop (name.length + 1) with
      | [] => none
      | q :: more =>
        if q = '"' then some (more.takeWhile (fun ch => ch ≠ '"'))
        else if q = Char.ofNat 39 then some (more.takeWhile (fun ch => ch ≠ Char.ofNat 39))
        else none
    else attrValue name rest

/-- `_extract_emails_from_mailto` (`email_extractor.py`, lines 62-76): anchors
whose `href` begins with `mailto:`; the address is the text between the first
`mailto:` and any following `mailto:`, cut at the first `?` and stripped. -/
def extract_emails_from_mailto (html_content : String) : List String :=
  let cs := chars html_content
  (tagRegions (chars "a") cs.length cs).filterMap (fun region =>
    match attrValue (chars "href") region with
    | some href =>
      if listStartsWith (chars "mailto:") href then
        let email := stripEnds ((takeUntilSub (chars "mailto:") (href.drop 7)).takeWhile
          (fun c => c ≠ '?'))
        if email.isEmpty then none else some (String.mk email)
      else none
    | none => none)

/-- Is the character one of the two quote characters of the script
concatenation regex. -/
def isQuote (c : Char) : Bool := c = '"' || c = Char.ofNat 39

/-- One attempted match of the script concatenation regex
`['"]([^'"]*)['"]\s*\+\s*['"]@['"]\s*\+\s*['"]([^'"]*)['"]` at the head of the
list; on success returns the reassembled address and the remainder. -/
def concatMatchAt (s : List Char) : Option (String × List Char) :=
  match s with
  | [] => none
  | q0 :: rest =>
    if isQuote q0 then
      let a := rest.takeWhile (fun c => !isQuote c)
      match rest.drop a.length with
      | [] => none
      | q1 :: r1 =>
        if isQuote q1 then
          match r1.dropWhile isWS with
          | '+' :: r3 =>
            match r3.dropWhile isWS with
            | q2 :: '@' :: q3 :: r5 =>
              if isQuote q2 && isQuote q3 then
                match r5.dropWhile isWS with
                | '+' :: r7 =>
                  match r7.dropWhile isWS with
                  | [] => none
                  | q4 :: rr =>
                    if isQuote q4 then
                      let b := rr.takeWhile (fun c => !isQuote c)
                      match rr.drop b.length with
                      | q5 :: rest2 =>
                        if isQuote q5 then some (String.mk (a ++ '@' :: b), rest2) else none
                      | [] => none
                    else none
                | _ => none
              else none
            | _ => none
          | _ => none
        else none
    else none

/-- `re.findall` of the concatenation regex over a script body. -/
def findConcatEmails : Nat → List Char → List String
  | 0, _ => []
  | _, [] => []
  | fuel + 1, c :: rest =>
    match concatMatchAt (c :: rest) with
    | some (em, after) => em :: findConcatEmails fuel after
    | none => findConcatEmails fuel rest

/-- One attempted match of the entity-encoded regex
`([a-zA-Z0-9._%+-]+)&#64;([a-zA-Z0-9.-]+\.[a-zA-Z]{2,})` at the head of the
list, reassembled with a literal `@`. -/
def encodedAtMatchAt (s : List Char) : Option (String × List Char) :=
  let lcl := s.takeWhile isLocalChar
  if lcl.isEmpty then none
  else
    let rest := s.drop lcl.length
    if listStartsWith (chars "&#64;") rest then
      let after := rest.drop 5
      let dom := after.takeWhile isDomainChar
      match domSplit dom with
      | some (pre, rem) => some (String.mk (lcl ++ '@' :: pre), rem ++ after.drop dom.length)
      | none => none
    else none

/-- `re.finditer` of the entity-encoded regex over the raw markup. -/
def findEncodedAtEmails : Nat → List Char → List String
  | 0, _ => []
  | _, [] => []
  | fuel + 1, c :: rest =>
    match encodedAtMatchAt (c :: rest) with
    | some (em, after) => em :: findEncodedAtEmails fuel after
    | none => findEncodedAtEmails fuel rest

/-- `_extract_obfuscated_emails` (`email_extractor.py`, lines 79-112):
data attributes, script concatenation idiom, and literal `&#64;` encoding,
in source order. -/
def extract_obfuscated_emails (html_content : String) : List String :=
  let cs := chars html_content
  let dataEmails := (allTagRegions cs.length cs).filterMap (fun region =>
    let nm := match attrValue (chars "data-name") region with | some v => v | none => []
    let dmn := match attrValue (chars "data-domain") region with | some v => v | none => []
    let eml := match attrValue (chars "data-email") region with | some v => v | none => []
    if !eml.isEmpty then some (String.mk eml)
    else if !nm.isEmpty && !dmn.isEmpty then some (String.mk (nm ++ '@' :: dmn))
    else none)
  let scriptEmails := (tagContents (chars "script") cs.length cs).foldr
    (fun body acc =>
      if containsSub (lowerList body) (chars "email") || body.contains '@' then
        findConcatEmails body.length body ++ acc
      else acc) []
  let encodedEmails := findEncodedAtEmails cs.length cs
  dataEmails ++ scriptEmails ++ encodedEmails

/-- Model of BeautifulSoup `.text`: inner markup with tags removed. -/
def stripTags : Nat → List Char → List Char
  | 0, _ => []
  | _, [] => []
  | fuel + 1, '<' :: rest => stripTags fuel ((rest.dropWhile (fun c => c ≠ '>')).drop 1)
  | fuel + 1, c :: rest => c :: stripTags fuel rest

/-- Python `str.split()`: maximal whitespace-separated words. -/
def splitWords : Nat → List Char → List (List Char)
  | 0, _ => []
  | _, [] => []
  | fuel + 1, c :: rest =>
    if isWS c then splitWords fuel rest
    else
      (c :: rest).takeWhile (fun ch => !isWS ch) ::
        splitWords fuel ((c :: rest).dropWhile (fun ch => !isWS ch))

/-- Python `' '.join(words)`. -/
def joinWords : List (List Char) → List Char
  | [] => []
  | [w] => w
  | w :: ws => w ++ ' ' :: joinWords ws

/-- `_extract_name_from_academic_page` (`email_extractor.py`, lines 115-133):
first `<h1>` whose stripped text is non-empty with at most five words,
otherwise the `<title>` when it mentions "profile" and its part before `|`
splits into two to five words. -/
def extract_name_from_academic_page (html_content : String) : Option String :=
  let cs := chars html_content
  let h1Choice := (tagContents (chars "h1") cs.length cs).findSome? (fun b =>
    let st := stripEnds (stripTags b.length b)
    if !st.isEmpty && decide ((splitWords st.length st).length ≤ 5) then some (String.mk st)
    else none)
  match h1Choice with
  | some name => some name
  | none =>
    match tagContents (chars "title") cs.length cs with
    | [] => none
    | t :: _ =>
      let ttext := stripTags t.length t
      if containsSub (lowerList ttext) (chars "profile") then
        let firstPart := stripEnds (ttext.takeWhile (fun c => c ≠ '|'))
        let parts := splitWords firstPart.length firstPart
        if decide (1 < parts.length) && decide (parts.length ≤ 5) then
          some (String.mk (joinWords parts))
        else none
      else none

/-- `re.search` of `@([a-zA-Z0-9.-]+\.[a-zA-Z]{2,})`: leftmost `@` followed by
a valid domain; used by `_generate_academic_email_pattern`. -/
def searchDomainAfterAt : Nat → List Char → Option (List Char)
  | 0, _ => none
  | _, [] => none
  | fuel + 1, '@' :: after =>
    (match domSplit (after.takeWhile isDomainChar) with
     | some (pre, _) => some pre
     | none => searchDomainAfterAt fuel after)
  | fuel + 1, _ :: rest => searchDomainAfterAt fuel rest

/-- `_generate_academic_email_pattern` (`email_extractor.py`, lines 136-159):
derive a domain from any `@domain` occurrence in the page, clean the name to
letters and whitespace, lowercase it, and when it has at least two words
synthesize `first.last@domain`. -/
def generate_academic_email_pattern (name : String) (html_content : String) : Option String :=
  let cs := chars html_content
  match searchDomainAfterAt cs.length cs with
  | none => none
  | some domain =>
    if domain.isEmpty then none
    else
      let cleaned := stripEnds (lowerList ((chars name).filter (fun c => c.isAlpha || isWS c)))
      match splitWords cleaned.length cleaned with
      | first :: p2 :: prest =>
        let lastw := (p2 :: prest).getLast (List.cons_ne_nil p2 prest)
        some (String.mk (first ++ '.' :: lastw ++ '@' :: domain))
      | _ => none

/-- The body of strategy 5 of `extract_emails_from_html` (lines 39-47): read a
name, then synthesize the academic address. The embedded computation is total;
the `Except` wrapper in `harvestWith` models the `try/except` of the source. -/
def academicCandidate (html_content : String) : Option String :=
  match extract_name_from_academic_page html_content with
  | some name => generate_academic_email_pattern name html_content
  | none => none

/-- Strategy 5 as a fallible computation: the source wraps it in
`try/except`; the embedded body never fails, so it always returns `ok`. -/
def academicStrategy (html_content : String) : Except String (Option String) :=
  Except.ok (academicCandidate html_content)

/-- Exact-match core of `_is_valid_email`'s regex
`^[a-zA-Z0-9._%+-]+@[a-zA-Z0-9.-]+\.[a-zA-Z]{2,}`: split at the first `@`
(the local class excludes `@`), then split the remainder at its last dot (only
the last dot can be followed by letters running to the end of the string). -/
def matchesEmailCore (cs : List Char) : Bool :=
  match splitAtFirst '@' cs with
  | none => false
  | some (lcl, after) =>
    match splitAtFirst '.' after.reverse with
    | none => false
    | some (trev, mrev) =>
      !lcl.isEmpty && lcl.all isLocalChar &&
      !mrev.isEmpty && (mrev.reverse).all isDomainChar &&
      decide (2 ≤ trev.length) && (trev.reverse).all Char.isAlpha

/-- The full anchored regex of `_is_valid_email` with Python `re.match`
semantics for `$`: the dollar anchor matches at the end of the string or just
before a single newline at the end of the string, so the pattern accepts the
core match itself or a core match followed by one trailing newline. -/
def matchesEmailRegex (cs : List Char) : Bool :=
  matchesEmailCore cs ||
    (match cs.reverse with
     | c :: r => (c == '\n') && matchesEmailCore r.reverse
     | [] => false)

/-- `_is_valid_email` (`email_extractor.py`, lines 162-174): non-empty, has an
`@`, a dot after the first `@` segment, length in `[5, 254]`, and the anchored
structural regex. -/
def is_valid_email (email : String) : Bool :=
  if (chars email).isEmpty then false
  else match splitAtFirst '@' (chars email) with
  | none => false
  | some (_, after) =>
    if !((after.takeWhile (fun c => c ≠ '@')).contains '.') then false
    else if (chars email).length < 5 || 254 < (chars email).length then false
    else matchesEmailRegex (chars email)

/-- Python `set.add`: order-preserving insertion without duplicates. -/
def setInsert (l : List String) (x : String) : List String :=
  if x ∈ l then l else l ++ [x]

/-- Python `set.update`: fold `setInsert` over the new elements. -/
def setUnion (l : List String) (xs : List String) : List String :=
  xs.foldl setInsert l

/-- `extract_emails_from_html` (lines 13-52) generalized over the fallible
strategy-5 computation: union the four unconditional strategies, guard the
fifth with the `try/except` of the source (an error contributes nothing), and
validate every candidate at the end. -/
def harvestWith (s5 : String → Except String (Option String)) (html_content : String) :
    List String :=
  let emails := setUnion [] (extract_emails_with_regex html_content)
  let emails := setUnion emails (extract_emails_with_regex (htmlUnescape html_content))
  let emails := setUnion emails (extract_emails_from_mailto html_content)
  let emails := setUnion emails (extract_obfuscated_emails html_content)
  let emails :=
    match s5 html_content with
    | Except.ok (some academic_email) => setInsert emails academic_email
    | Except.ok none => emails
    | Except.error _ => emails
  emails.filter is_valid_email

/-- The union of the four unconditional strategies, validated — what
`extract_emails_from_html` computes when strategy 5 contributes nothing. -/
def validatedUnionOfFour (html_content : String) : List String :=
  let emails := setUnion [] (extract_emails_with_regex html_content)
  let emails := setUnion emails (extract_emails_with_regex (htmlUnescape html_content))
  let emails := setUnion emails (extract_emails_from_mailto html_content)
  let emails := setUnion emails (extract_obfuscated_emails html_content)
  emails.filter is_valid_email

/-- `extract_emails_from_html` (`email_extractor.py`, lines 13-52). -/
def extract_emails_from_html (html_content : String) : List String :=
  harvestWith academicStrategy html_content


/-! ### Helper lemmas about the email harvester -/

lemma splitAtFirst_eq (sep : Char) :
    ∀ (cs l r : List Char), splitAtFirst sep cs = some (l, r) → cs = l ++ sep :: r := by
  intro cs
  induction cs with
  | nil => intro l r h; cases h
  | cons c rest ih =>
    intro l r h
    simp only [splitAtFirst] at h
    by_cases hc : c = sep
    · rw [if_pos hc] at h
      simp only [Option.some.injEq, Prod.mk.injEq] at h
      obtain ⟨rfl, rfl⟩ := h
      simp [hc]
    · rw [if_neg hc] at h
      cases hsp : splitAtFirst sep rest with
      | none => rw [hsp] at h; cases h
      | some p =>
        obtain ⟨l2, r2⟩ := p
        rw [hsp] at h
        simp only [Option.some.injEq, Prod.mk.injEq] at h
        obtain ⟨rfl, rfl⟩ := h
        rw [List.cons_append, ih l2 r2 hsp]

lemma emailStructure_of_matches (cs : List Char) (h : matchesEmailCore cs = true) :
    ∃ lcl dom tld : List Char,
      cs = lcl ++ '@' :: (dom ++ '.' :: tld) ∧ lcl ≠ [] ∧ lcl.all isLocalChar = true ∧
      dom ≠ [] ∧ dom.all isDomainChar = true ∧ 2 ≤ tld.length ∧
      tld.all Char.isAlpha = true := by
  unfold matchesEmailCore at h
  cases h1 : splitAtFirst '@' cs with
  | none => rw [h1] at h; cases h
  | some p =>
    obtain ⟨lcl, after⟩ := p
    rw [h1] at h
    dsimp only at h
    cases h2 : splitAtFirst '.' after.reverse with
    | none => rw [h2] at h; cases h
    | some q =>
      obtain ⟨trev, mrev⟩ := q
      rw [h2] at h
      simp only [Bool.and_eq_true, Bool.not_eq_true', decide_eq_true_eq] at h
      obtain ⟨⟨⟨⟨⟨hlne, hlall⟩, hmne⟩, hmall⟩, htlen⟩, htall⟩ := h
      have hcs : cs = lcl ++ '@' :: after := splitAtFirst_eq '@' cs lcl after h1
      have hrev : after.reverse = trev ++ '.' :: mrev :=
        splitAtFirst_eq '.' after.reverse trev mrev h2
      have hafter : after = mrev.reverse ++ '.' :: trev.reverse := by
        have h3 := congrArg List.reverse hrev
        rw [List.reverse_reverse] at h3
        rw [h3, List.reverse_append, List.reverse_cons, List.append_assoc]
        simp
      refine ⟨lcl, mrev.reverse, trev.reverse, ?_, ?_, hlall, ?_, hmall, ?_, htall⟩
      · rw [hcs, hafter]
      · intro hl; rw [hl] at hlne; cases hlne
      · intro hm
        rw [List.reverse_eq_nil_iff] at hm
        rw [hm] at hmne; cases hmne
      · rw [List.length_reverse]; exact htlen

lemma valid_email_parts (email : String) (h : is_valid_email email = true) :
    matchesEmailRegex (chars email) = true ∧ 5 ≤ (chars email).length ∧
      (chars email).length ≤ 254 := by
  unfold is_valid_email at h
  by_cases h0 : (chars email).isEmpty = true
  · rw [if_pos h0] at h; cases h
  · rw [if_neg h0] at h
    cases h1 : splitAtFirst '@' (chars email) with
    | none => rw [h1] at h; cases h
    | some p =>
      obtain ⟨l0, after⟩ := p
      rw [h1] at h
      dsimp only at h
      by_cases h2 : (!((after.takeWhile (fun c => c ≠ '@')).contains '.')) = true
      · rw [if_pos h2] at h; cases h
      · rw [if_neg h2] at h
        by_cases h3 : ((chars email).length < 5 || 254 < (chars email).length) = true
        · rw [if_pos h3] at h; cases h
        · rw [if_neg h3] at h
          simp only [Bool.or_eq_true, decide_eq_true_eq, not_or, Nat.not_lt] at h3
          exact ⟨h, h3.1, h3.2⟩

lemma emailStructure_of_matchesRegex (cs : List Char) (h : matchesEmailRegex cs = true) :
    ∃ lcl dom tld : List Char,
      (cs = lcl ++ '@' :: (dom ++ '.' :: tld) ∨
        cs = (lcl ++ '@' :: (dom ++ '.' :: tld)) ++ ['\n']) ∧
      lcl ≠ [] ∧ lcl.all isLocalChar = true ∧
      dom ≠ [] ∧ dom.all isDomainChar = true ∧ 2 ≤ tld.length ∧
      tld.all Char.isAlpha = true := by
  unfold matchesEmailRegex at h
  rw [Bool.or_eq_true] at h
  rcases h with h | h
  · obtain ⟨lcl, dom, tld, heq, hrest⟩ := emailStructure_of_matches cs h
    exact ⟨lcl, dom, tld, Or.inl heq, hrest⟩
  · cases hrev : cs.reverse with
    | nil => rw [hrev] at h; cases h
    | cons c r =>
      rw [hrev] at h
      dsimp only at h
      rw [Bool.and_eq_true] at h
      obtain ⟨hc, hcore⟩ := h
      have hcn : c = '\n' := by simpa using hc
      have hcs : cs = r.reverse ++ ['\n'] := by
        have h2 := congrArg List.reverse hrev
        rw [List.reverse_reverse] at h2
        rw [h2, List.reverse_cons, hcn]
      obtain ⟨lcl, dom, tld, heq, hrest⟩ := emailStructure_of_matches r.reverse hcore
      exact ⟨lcl, dom, tld, Or.inr (by rw [hcs, heq]), hrest⟩

/-! ### Claims about the email harvester -/

/-- C8 counterexample: the script-concatenation strategy reassembles
`"a" + "@" + "b.com\n"` into the candidate `a@b.com` followed by a newline
(the class `[^'"]*` matches a newline), and `_is_valid_email` accepts it,
because Python's `$` anchor in `re.match` also matches just before a single
trailing newline; the output string admits no `local@domain.tld` decomposition
with an all-letter TLD, refuting the claimed invariant. -/
theorem claim_C8_counterexample :
    "a@b.com\n" ∈ extract_emails_from_html
        "<script>var e = \"a\" + \"@\" + \"b.com\n\";</script>" ∧
    is_valid_email "a@b.com\n" = true ∧
    ¬∃ lcl dom tld : List Char,
      chars "a@b.com\n" = lcl ++ '@' :: (dom ++ '.' :: tld) ∧ lcl ≠ [] ∧
      lcl.all isLocalChar = true ∧ dom ≠ [] ∧ dom.all isDomainChar = true ∧
      2 ≤ tld.length ∧ tld.all Char.isAlpha = true := by
  refine ⟨by decide, by decide, ?_⟩
  rintro ⟨lcl, dom, tld, heq, -, -, -, -, hlen, halpha⟩
  have htne : tld ≠ [] := by
    intro hh; rw [hh] at hlen; simp at hlen
  have heq2 : chars "a@b.com\n" = ((lcl ++ '@' :: dom) ++ ['.']) ++ tld := by
    rw [heq]; simp [List.append_assoc]
  have h3 := congrArg List.reverse heq2
  rw [List.reverse_append] at h3
  cases htld : tld.reverse with
  | nil => rw [List.reverse_eq_nil_iff] at htld; exact htne htld
  | cons t0 tr =>
    rw [htld, List.cons_append] at h3
    have hLHS : (chars "a@b.com\n").reverse = '\n' :: chars "moc.b@a" := by decide
    rw [hLHS] at h3
    injection h3 with h4 h5
    have ht0 : t0 ∈ tld := by
      rw [← List.mem_reverse, htld]
      exact List.mem_cons_self t0 tr
    have := (List.all_eq_true.1 halpha) t0 ht0
    rw [← h4] at this
    exact absurd this (by decide)

/-- C8 amended: every string returned by `extract_emails_from_html` has length
within `[5, 254]` and is either exactly `local-part@domain.tld` — local part
non-empty over `[A-Za-z0-9._%+-]`, domain non-empty over `[A-Za-z0-9.-]`, TLD
of at least two letters — or such a match followed by one trailing newline
(Python's `$` anchor accepts it); `"@example.com"` and `"john@"` never appear,
for any HTML input and regardless of which strategy produced the candidate. -/
theorem claim_C8_email_validity (html e : String) (h : e ∈ extract_emails_from_html html) :
    (∃ lcl dom tld : List Char,
      (chars e = lcl ++ '@' :: (dom ++ '.' :: tld) ∨
        chars e = (lcl ++ '@' :: (dom ++ '.' :: tld)) ++ ['\n']) ∧ lcl ≠ [] ∧
      lcl.all isLocalChar = true ∧ dom ≠ [] ∧ dom.all isDomainChar = true ∧
      2 ≤ tld.length ∧ tld.all Char.isAlpha = true) ∧
    5 ≤ e.length ∧ e.length ≤ 254 ∧ e ≠ "@example.com" ∧ e ≠ "john@" := by
  have hv : is_valid_email e = true := by
    simp only [extract_emails_from_html, harvestWith] at h
    exact (List.mem_filter.1 h).2
  have hp := valid_email_parts e hv
  refine ⟨emailStructure_of_matchesRegex _ hp.1, hp.2.1, hp.2.2, ?_, ?_⟩
  · intro he; rw [he] at hv; exact absurd hv (by decide)
  · intro he; rw [he] at hv; exact absurd hv (by decide)

/-- Witness for the amended C8 at a concrete page. -/
theorem claim_C8_witness :
    "a@b.com" ∈ extract_emails_from_html "contact a@b.com" ∧
    ((∃ lcl dom tld : List Char,
      (chars "a@b.com" = lcl ++ '@' :: (dom ++ '.' :: tld) ∨
        chars "a@b.com" = (lcl ++ '@' :: (dom ++ '.' :: tld)) ++ ['\n']) ∧ lcl ≠ [] ∧
      lcl.all isLocalChar = true ∧ dom ≠ [] ∧ dom.all isDomainChar = true ∧
      2 ≤ tld.length ∧ tld.all Char.isAlpha = true) ∧
    5 ≤ ("a@b.com" : String).length ∧ ("a@b.com" : String).length ≤ 254 ∧
    ("a@b.com" : String) ≠ "@example.com" ∧ ("a@b.com" : String) ≠ "john@") :=
  ⟨by decide, claim_C8_email_validity "contact a@b.com" "a@b.com" (by decide)⟩

/-- C9: the harvester returns a plain result for every input; an error raised
anywhere inside the academic-inference strategy is caught locally by the
`try/except` of the source, that strategy contributes nothing, and the result
is exactly the validated union of the other four strategies; the embedded
strategy-5 body itself is total, always returning `ok`. -/
theorem claim_C9_strategy5_isolation (s5 : String → Except String (Option String))
    (html err : String) (h : s5 html = Except.error err) :
    harvestWith s5 html = validatedUnionOfFour html ∧
    extract_emails_from_html html = harvestWith academicStrategy html ∧
    academicStrategy html = Except.ok (academicCandidate html) := by
  refine ⟨?_, rfl, rfl⟩
  simp only [harvestWith, validatedUnionOfFour, h]

/-- Witness for C9 with a strategy-5 computation that fails. -/
theorem claim_C9_witness :
    harvestWith (fun _ => Except.error "parse failure") "contact a@b.com" =
      validatedUnionOfFour "contact a@b.com" :=
  (claim_C9_strategy5_isolation (fun _ => Except.error "parse failure") "contact a@b.com"
    "parse failure" rfl).1
